import Mathlib

/-!
# Wiring of the EVM transaction manager, the test configuration overrides and
# the discoverer announcement store

Three parts of the repository are embedded here:

* `core/chains/evm/builder/builder.go` : `NewTxm`, which builds the transaction
  manager and its workers from the collaborators it is given;
* `core/internal/testutils/configtest/general_config.go` : `NewGeneralConfig`,
  `overrides`, `simulated`, the override functions of the test configuration;
* `core/services/ocrcommon` : the discoverer announcement database exercised by
  `discoverer_database_test.go`.

The optional collaborators of the manager (`fwdMgr`, `txNonceSyncer`,
`ethResender`) and the pointer fields of the configuration nodes are `Option`s,
`none` standing for a Go nil; the collaborators handed in by the caller are opaque
handles.
-/

namespace Builder

/-! ## Collaborators handed to `NewTxm` -/

/-- The `*sqlx.DB` handle. -/
structure DB where
  ref : Nat
  deriving DecidableEq, Repr

/-- The `evmclient.Client`; `ChainID` is the big integer `client.ChainID()` points to. -/
structure Client where
  ref : Nat
  ChainID : Int
  deriving DecidableEq, Repr

/-- The `logger.Logger`. -/
structure Logger where
  ref : Nat
  deriving DecidableEq, Repr

/-- The `logpoller.LogPoller`. -/
structure LogPoller where
  ref : Nat
  deriving DecidableEq, Repr

/-- The `keystore.Eth`. -/
structure KeyStore where
  ref : Nat
  deriving DecidableEq, Repr

/-- The `pg.EventBroadcaster`. -/
structure EventBroadcaster where
  ref : Nat
  deriving DecidableEq, Repr

/-- The `gas.EvmFeeEstimator`. -/
structure Estimator where
  ref : Nat
  deriving DecidableEq, Repr

/-- The `txmgr.Config` interface, with the three getters `NewTxm` calls.
`EthTxResendAfterThreshold` is a `time.Duration`, a signed count of nanoseconds. -/
structure Config where
  ref : Nat
  EvmUseForwarders : Bool
  EthTxResendAfterThreshold : Int
  EvmNonceAutoSync : Bool
  deriving DecidableEq, Repr

/-! ## Objects built by the constructors `NewTxm` calls

The constructors live in packages `forwarders` and `txmgr`, outside the embedded
sources.  Each one is a free constructor: the object it returns records the
arguments of the call, in the order of the call, and the allocation number `id`
under which it was created, so that two calls never give the same object. -/

/-- Result of `forwarders.NewFwdMgr(db, client, logPoller, lggr, cfg)`. -/
structure FwdMgr where
  id : Nat
  db : DB
  client : Client
  logPoller : LogPoller
  lggr : Logger
  cfg : Config
  deriving DecidableEq, Repr

/-- The literal `&txmgr.CheckerFactory{Client: client}`. -/
structure CheckerFactory where
  id : Nat
  Client : Client
  deriving DecidableEq, Repr

/-- Result of `txmgr.NewEvmTxAttemptBuilder(chainID, cfg, keyStore, estimator)`. -/
structure EvmTxAttemptBuilder where
  id : Nat
  chainID : Int
  cfg : Config
  keyStore : KeyStore
  estimator : Estimator
  deriving DecidableEq, Repr

/-- Result of `txmgr.NewTxStore(db, lggr, cfg)`. -/
structure TxStore where
  id : Nat
  db : DB
  lggr : Logger
  cfg : Config
  deriving DecidableEq, Repr

/-- Result of `txmgr.NewNonceSyncer(txStore, lggr, client, keyStore)`. -/
structure NonceSyncer where
  id : Nat
  txStore : TxStore
  lggr : Logger
  client : Client
  keyStore : KeyStore
  deriving DecidableEq, Repr

/-- Result of `txmgr.NewEthBroadcaster(txStore, client, cfg, keyStore, eventBroadcaster,
txAttemptBuilder, txNonceSyncer, lggr, checker, autoSyncNonce)`.  The nonce syncer
parameter is a Go interface value, which may be nil. -/
structure EthBroadcaster where
  id : Nat
  txStore : TxStore
  client : Client
  cfg : Config
  keyStore : KeyStore
  eventBroadcaster : EventBroadcaster
  txAttemptBuilder : EvmTxAttemptBuilder
  txNonceSyncer : Option NonceSyncer
  lggr : Logger
  checker : CheckerFactory
  autoSyncNonce : Bool
  deriving DecidableEq, Repr

/-- Result of `txmgr.NewEthConfirmer(txStore, client, cfg, keyStore, txAttemptBuilder, lggr)`. -/
structure EthConfirmer where
  id : Nat
  txStore : TxStore
  client : Client
  cfg : Config
  keyStore : KeyStore
  txAttemptBuilder : EvmTxAttemptBuilder
  lggr : Logger
  deriving DecidableEq, Repr

/-- Result of `txmgr.NewEthResender(lggr, txStore, client, keyStore, pollInterval, cfg)`. -/
structure EvmResender where
  id : Nat
  lggr : Logger
  txStore : TxStore
  client : Client
  keyStore : KeyStore
  pollInterval : Int
  cfg : Config
  deriving DecidableEq, Repr

/-- Result of `txmgr.NewTxm(db, client, cfg, keyStore, eventBroadcaster, lggr, checker,
fwdMgr, txAttemptBuilder, txStore, txNonceSyncer, ethBroadcaster, ethConfirmer,
ethResender)`.  `fwdMgr`, `txNonceSyncer` and `ethResender` are Go interface or
pointer values, which may be nil. -/
structure EvmTxManager where
  id : Nat
  db : DB
  client : Client
  cfg : Config
  keyStore : KeyStore
  eventBroadcaster : EventBroadcaster
  lggr : Logger
  checker : CheckerFactory
  fwdMgr : Option FwdMgr
  txAttemptBuilder : EvmTxAttemptBuilder
  txStore : TxStore
  txNonceSyncer : Option NonceSyncer
  ethBroadcaster : EthBroadcaster
  ethConfirmer : EthConfirmer
  ethResender : Option EvmResender
  deriving DecidableEq, Repr

/-- What `NewTxm` does that is visible from outside, in program order: a constructor
call (with the allocation number of the object it returned) or a log line. -/
inductive Event where
  | NewFwdMgr (id : Nat)
  | CheckerFactory (id : Nat)
  | NewEvmTxAttemptBuilder (id : Nat)
  | NewTxStore (id : Nat)
  | NewNonceSyncer (id : Nat)
  | NewEthBroadcaster (id : Nat)
  | NewEthConfirmer (id : Nat)
  | NewEthResender (id : Nat)
  | NewTxm (id : Nat)
  | Info (lggr : Logger) (msg : String)
  deriving DecidableEq, Repr

/-- The pair `(txm, err)` returned by `NewTxm`, with the events of the call. -/
structure Result where
  txm : EvmTxManager
  err : Option String
  events : List Event
  deriving DecidableEq, Repr

/-- `NewTxm` of `builder.go`.  `next` is the allocation number of the first object
built; `DefaultResenderPollInterval` is the constant of package `txmgr`. -/
def NewTxm (DefaultResenderPollInterval : Int) (next : Nat)
    (db : DB) (cfg : Config) (client : Client) (lggr : Logger) (logPoller : LogPoller)
    (keyStore : KeyStore) (eventBroadcaster : EventBroadcaster) (estimator : Estimator) :
    Result :=
  -- var fwdMgr txmgr.EvmFwdMgr; if cfg.EvmUseForwarders() { ... } else { lggr.Info(...) }
  let (fwdMgr, ev0, n0) : Option FwdMgr × List Event × Nat :=
    if cfg.EvmUseForwarders then
      (some { id := next, db := db, client := client, logPoller := logPoller,
              lggr := lggr, cfg := cfg },
       [Event.NewFwdMgr next], next + 1)
    else
      (none, [Event.Info lggr "EvmForwarderManager: Disabled"], next)
  let checker : CheckerFactory := { id := n0, Client := client }
  let txAttemptBuilder : EvmTxAttemptBuilder :=
    { id := n0 + 1, chainID := client.ChainID, cfg := cfg, keyStore := keyStore,
      estimator := estimator }
  let txStore : TxStore := { id := n0 + 2, db := db, lggr := lggr, cfg := cfg }
  let txNonceSyncer : NonceSyncer :=
    { id := n0 + 3, txStore := txStore, lggr := lggr, client := client, keyStore := keyStore }
  let ethBroadcaster : EthBroadcaster :=
    { id := n0 + 4, txStore := txStore, client := client, cfg := cfg, keyStore := keyStore,
      eventBroadcaster := eventBroadcaster, txAttemptBuilder := txAttemptBuilder,
      txNonceSyncer := some txNonceSyncer, lggr := lggr, checker := checker,
      autoSyncNonce := cfg.EvmNonceAutoSync }
  let ethConfirmer : EthConfirmer :=
    { id := n0 + 5, txStore := txStore, client := client, cfg := cfg, keyStore := keyStore,
      txAttemptBuilder := txAttemptBuilder, lggr := lggr }
  let ev1 : List Event :=
    ev0 ++ [Event.CheckerFactory n0, Event.NewEvmTxAttemptBuilder (n0 + 1),
            Event.NewTxStore (n0 + 2), Event.NewNonceSyncer (n0 + 3),
            Event.NewEthBroadcaster (n0 + 4), Event.NewEthConfirmer (n0 + 5)]
  -- var ethResender *txmgr.EvmResender; if cfg.EthTxResendAfterThreshold() > 0 { ... }
  let (ethResender, ev2, n1) : Option EvmResender × List Event × Nat :=
    if cfg.EthTxResendAfterThreshold > 0 then
      (some { id := n0 + 6, lggr := lggr, txStore := txStore, client := client,
              keyStore := keyStore, pollInterval := DefaultResenderPollInterval, cfg := cfg },
       ev1 ++ [Event.NewEthResender (n0 + 6)], n0 + 7)
    else
      (none, ev1, n0 + 6)
  let txm : EvmTxManager :=
    { id := n1, db := db, client := client, cfg := cfg, keyStore := keyStore,
      eventBroadcaster := eventBroadcaster, lggr := lggr, checker := checker,
      fwdMgr := fwdMgr, txAttemptBuilder := txAttemptBuilder, txStore := txStore,
      txNonceSyncer := some txNonceSyncer, ethBroadcaster := ethBroadcaster,
      ethConfirmer := ethConfirmer, ethResender := ethResender }
  -- return txm, nil
  { txm := txm, err := none, events := ev2 ++ [Event.NewTxm n1] }

/-- Every transaction store reachable from a manager: its own, and the one held by
each worker it was given. -/
def EvmTxManager.stores (m : EvmTxManager) : List TxStore :=
  [m.txStore, m.ethBroadcaster.txStore, m.ethConfirmer.txStore]
    ++ (m.txNonceSyncer.map (fun s => s.txStore)).toList
    ++ (m.ethBroadcaster.txNonceSyncer.map (fun s => s.txStore)).toList
    ++ (m.ethResender.map (fun r => r.txStore)).toList

/-- The allocation numbers of the `NewTxStore` calls among some events. -/
def storeCalls (evs : List Event) : List Nat :=
  evs.filterMap (fun e => match e with
    | Event.NewTxStore id => some id
    | _ => none)

/-- A configuration for examples. -/
def exampleCfg (useFwd : Bool) (resendAfter : Int) (autoSync : Bool) : Config :=
  { ref := 0, EvmUseForwarders := useFwd, EthTxResendAfterThreshold := resendAfter,
    EvmNonceAutoSync := autoSync }

/-- `NewTxm` on example collaborators, for the given configuration. -/
def exampleRun (cfg : Config) : Result :=
  NewTxm 5000000000 0 ⟨1⟩ cfg ⟨2, 1337⟩ ⟨3⟩ ⟨4⟩ ⟨5⟩ ⟨6⟩ ⟨7⟩

end Builder

namespace Configtest

/-! ## The configuration types written by the override functions

`chainlink.Config`, `chainlink.Secrets` and the `evmcfg` types are declared outside
the embedded sources; the structures below hold the fields the override functions
assign.  A field the source assigns through a pointer is an `Option`. -/

/-- A `models.URL`: the zero value `models.URL{}`, or what `models.MustParseURL`
returned for a string. -/
inductive URL where
  | zero
  | MustParseURL (s : String)
  deriving DecidableEq, Repr

/-- A `net.IP`, as returned by `net.ParseIP` for a string. -/
inductive IP where
  | ParseIP (s : String)
  deriving DecidableEq, Repr

/-- The per-chain settings `evmcfg.Chain`, an opaque value. -/
structure Chain where
  ref : Nat
  deriving DecidableEq, Repr

/-- An `evmcfg.Node`; `Order` is an `int32`. -/
structure Node where
  Name : Option String
  WSURL : Option URL
  HTTPURL : Option URL
  SendOnly : Option Bool
  Order : Option Int
  deriving DecidableEq, Repr

/-- An `evmcfg.EVMConfig`.  `ChainID` is the big integer its `*utils.Big` points to. -/
structure EVMConfig where
  ChainID : Int
  Enabled : Option Bool
  Chain : Chain
  Nodes : List Node
  deriving DecidableEq, Repr

/-- The `Insecure` section. -/
structure Insecure where
  OCRDevelopmentMode : Option Bool
  deriving DecidableEq, Repr

/-- The `Database.Lock` section. -/
structure DatabaseLock where
  Enabled : Option Bool
  deriving DecidableEq, Repr

/-- The `Database` section; durations are nanoseconds, as in `time.Duration`. -/
structure Database where
  Dialect : String
  Lock : DatabaseLock
  MaxIdleConns : Option Int
  MaxOpenConns : Option Int
  MigrateOnStartup : Option Bool
  DefaultLockTimeout : Option Int
  deriving DecidableEq, Repr

/-- The `JobPipeline` section. -/
structure JobPipeline where
  ReaperInterval : Option Int
  deriving DecidableEq, Repr

/-- The `P2P.V2` section. -/
structure P2PV2 where
  Enabled : Option Bool
  deriving DecidableEq, Repr

/-- The `P2P` section. -/
structure P2P where
  V2 : P2PV2
  deriving DecidableEq, Repr

/-- The `WebServer.TLS` section. -/
structure WebServerTLS where
  ListenIP : Option IP
  deriving DecidableEq, Repr

/-- The `WebServer` section. -/
structure WebServer where
  SessionTimeout : Option Int
  BridgeResponseURL : Option URL
  ListenIP : Option IP
  TLS : WebServerTLS
  deriving DecidableEq, Repr

/-- The `chainlink.Config` the override functions receive. -/
structure Config where
  Insecure : Insecure
  InsecureFastScrypt : Option Bool
  ShutdownGracePeriod : Option Int
  Database : Database
  JobPipeline : JobPipeline
  P2P : P2P
  WebServer : WebServer
  EVM : List EVMConfig
  RootDir : Option String
  deriving DecidableEq, Repr

/-- The `Password` section of the secrets. -/
structure Passwords where
  Keystore : Option String
  deriving DecidableEq, Repr

/-- The `chainlink.Secrets` the override functions receive. -/
structure Secrets where
  Password : Passwords
  deriving DecidableEq, Repr

/-- Constants and functions of other packages that the override functions use. -/
structure Externals where
  /-- The int64 constant `evmclient.NullClientChainID`. -/
  NullClientChainID : Int
  /-- The big integer `testutils.SimulatedChainID`. -/
  SimulatedChainID : Int
  /-- The duration `testutils.DefaultWaitTimeout`. -/
  DefaultWaitTimeout : Int
  /-- The dialect name `dialects.TransactionWrappedPostgres`. -/
  TransactionWrappedPostgres : String
  /-- The function `evmcfg.Defaults`. -/
  Defaults : Int → Chain

/-- An override function `func(*chainlink.Config, *chainlink.Secrets)`: it updates
both in place, here it returns the updated pair. -/
abbrev OverrideFunc := Config → Secrets → Config × Secrets

/-- Go `time.Minute`, in nanoseconds. -/
def Minute : Int := 60 * 1000000000

/-- The three-way comparison `(*utils.Big).Cmp` of big integers. -/
def Cmp (a b : Int) : Int :=
  if a < b then -1 else if a = b then 0 else 1

/-- The chain entry `overrides` appends. -/
def nullChain (x : Externals) : EVMConfig :=
  -- chainID := utils.NewBigI(evmclient.NullClientChainID)
  let chainID := x.NullClientChainID
  { ChainID := chainID
    Enabled := none
    Chain := x.Defaults chainID
    Nodes := [{ Name := some "test"
                WSURL := some URL.zero
                HTTPURL := some URL.zero
                SendOnly := some false
                Order := some 100 }] }

/-- `overrides` of `general_config.go`. -/
def overrides (x : Externals) : OverrideFunc := fun c s =>
  let s := { s with Password := { s.Password with Keystore := some "dummy-to-pass-validation" } }
  let c := { c with Insecure := { c.Insecure with OCRDevelopmentMode := some true } }
  let c := { c with InsecureFastScrypt := some true }
  let c := { c with ShutdownGracePeriod := some x.DefaultWaitTimeout }
  let c := { c with Database := { c.Database with Dialect := x.TransactionWrappedPostgres } }
  let c := { c with Database := { c.Database with
                      Lock := { c.Database.Lock with Enabled := some false } } }
  let c := { c with Database := { c.Database with MaxIdleConns := some 20 } }
  let c := { c with Database := { c.Database with MaxOpenConns := some 20 } }
  let c := { c with Database := { c.Database with MigrateOnStartup := some false } }
  let c := { c with Database := { c.Database with DefaultLockTimeout := some (1 * Minute) } }
  let c := { c with JobPipeline := { c.JobPipeline with ReaperInterval := some 0 } }
  let c := { c with P2P := { c.P2P with V2 := { c.P2P.V2 with Enabled := some false } } }
  let c := { c with WebServer := { c.WebServer with SessionTimeout := some (2 * Minute) } }
  let c := { c with WebServer := { c.WebServer with
                      BridgeResponseURL := some (URL.MustParseURL "http://localhost:6688") } }
  let testIP := IP.ParseIP "127.0.0.1"
  let c := { c with WebServer := { c.WebServer with ListenIP := some testIP } }
  let c := { c with WebServer := { c.WebServer with
                      TLS := { c.WebServer.TLS with ListenIP := some testIP } } }
  let c := { c with EVM := c.EVM ++ [nullChain x] }
  (c, s)

/-- The closure `NewGeneralConfig` installs as `GeneralConfigOpts.OverrideFn`, for
the temporary directory `tempDir` and the caller's `overrideFn` (`none` is nil). -/
def NewGeneralConfig_OverrideFn (x : Externals) (tempDir : String)
    (overrideFn : Option OverrideFunc) : OverrideFunc := fun c s =>
  let (c, s) := overrides x c s
  let c := { c with RootDir := some tempDir }
  match overrideFn with
  | some fn => fn c s
  | none => (c, s)

/-- The closure installed by `NewTestGeneralConfig`, which passes a nil `overrideFn`. -/
def NewTestGeneralConfig_OverrideFn (x : Externals) (tempDir : String) : OverrideFunc :=
  NewGeneralConfig_OverrideFn x tempDir none

/-- The package variable `validTestNode`. -/
def validTestNode : Node :=
  { Name := some "simulated-node"
    WSURL := some (URL.MustParseURL "WSS://simulated-wss.com/ws")
    HTTPURL := some (URL.MustParseURL "http://simulated.com")
    SendOnly := none
    Order := some 1 }

/-- The chain entry `cfg` that `simulated` builds. -/
def simulatedChain (x : Externals) : EVMConfig :=
  -- chainID := utils.NewBig(testutils.SimulatedChainID)
  let chainID := x.SimulatedChainID
  { ChainID := chainID
    Chain := x.Defaults chainID
    Enabled := some true
    Nodes := [validTestNode] }

/-- `simulated` of `general_config.go`. -/
def simulated (x : Externals) : OverrideFunc := fun c s =>
  let cfg := simulatedChain x
  match c.EVM with
  | [e] =>
    if Cmp e.ChainID x.NullClientChainID = 0 then
      ({ c with EVM := [cfg] }, s)
    else
      ({ c with EVM := c.EVM ++ [cfg] }, s)
  | _ => ({ c with EVM := c.EVM ++ [cfg] }, s)

/-- The override function `NewGeneralConfigSimulated` passes to `NewGeneralConfig`. -/
def NewGeneralConfigSimulated_overrideFn (x : Externals)
    (overrideFn : Option OverrideFunc) : OverrideFunc := fun c s =>
  let (c, s) := simulated x c s
  match overrideFn with
  | some fn => fn c s
  | none => (c, s)

/-- Example values for the constants of other packages. -/
def exampleExternals : Externals :=
  { NullClientChainID := 1399100
    SimulatedChainID := 1337
    DefaultWaitTimeout := 30 * 1000000000
    TransactionWrappedPostgres := "txdb"
    Defaults := fun chainID => { ref := chainID.toNat } }

/-- An empty configuration, every pointer nil. -/
def emptyConfig : Config :=
  { Insecure := { OCRDevelopmentMode := none }
    InsecureFastScrypt := none
    ShutdownGracePeriod := none
    Database := { Dialect := "", Lock := { Enabled := none }, MaxIdleConns := none,
                  MaxOpenConns := none, MigrateOnStartup := none, DefaultLockTimeout := none }
    JobPipeline := { ReaperInterval := none }
    P2P := { V2 := { Enabled := none } }
    WebServer := { SessionTimeout := none, BridgeResponseURL := none, ListenIP := none,
                   TLS := { ListenIP := none } }
    EVM := []
    RootDir := none }

/-- Empty secrets. -/
def emptySecrets : Secrets := { Password := { Keystore := none } }

end Configtest

namespace Ocrcommon

/-! ## The discoverer announcement database

`discoverer_database_test.go` exercises `NewDiscovererDatabase`, `StoreAnnouncement`
and `ReadAnnouncements`, whose implementation is outside the embedded sources.
The database is shared by all handles, so it is passed explicitly. -/

/-- A byte string (`[]byte`). -/
abbrev Bytes := List Nat

/-- Modelled from the spec: a row of the announcement table, which is declared
outside the embedded sources; it holds the announcement stored for a (local peer
ID, remote peer ID) pair. -/
structure Row where
  local_peer_id : String
  remote_peer_id : String
  ann : Bytes
  deriving DecidableEq, Repr

/-- Modelled from the spec: the contents of the announcement table, which is outside
the embedded sources; the stored rows, oldest pair first. -/
abbrev Table := List Row

/-- A Go `map[string][]byte`, as the list of its entries; keys occur once. -/
abbrev Announcements := List (String × Bytes)

/-- Assignment `m[k] = v` on a map. -/
def Announcements.set (m : Announcements) (k : String) (v : Bytes) : Announcements :=
  if m.any (fun e => e.1 = k) then
    m.map (fun e => if e.1 = k then (k, v) else e)
  else
    m ++ [(k, v)]

/-- Lookup `m[k]` on a map. -/
def Announcements.get (m : Announcements) (k : String) : Option Bytes :=
  (m.find? (fun e => e.1 = k)).map Prod.snd

/-- Modelled from the spec: the handle type of the announcement-persistence helper,
whose declaration is outside the embedded sources; it is a database handle scoped
to one local peer ID.  `handle` tells two handles apart. -/
structure DiscovererDatabase where
  handle : Nat
  peerID : String
  deriving DecidableEq, Repr

/-- Modelled from the spec: the constructor `NewDiscovererDatabase(db, peerID)`, which
is outside the embedded sources; it returns a handle over the shared database for
the local peer ID. -/
def NewDiscovererDatabase (handle : Nat) (peerID : String) : DiscovererDatabase :=
  { handle := handle, peerID := peerID }

/-- Modelled from the spec: `StoreAnnouncement`, which is outside the embedded
sources; the store is "a simple upsert/lookup store": the announcement for the pair
(local peer ID, remote peer ID) is updated when the pair has a row and inserted
otherwise. -/
def StoreAnnouncement (d : DiscovererDatabase) (peerID : String) (ann : Bytes)
    (db : Table) : Table :=
  if db.any (fun r => r.local_peer_id = d.peerID ∧ r.remote_peer_id = peerID) then
    db.map (fun r =>
      if r.local_peer_id = d.peerID ∧ r.remote_peer_id = peerID then { r with ann := ann } else r)
  else
    db ++ [{ local_peer_id := d.peerID, remote_peer_id := peerID, ann := ann }]

/-- Modelled from the spec: `ReadAnnouncements`, which is outside the embedded
sources; the lookup of the "simple upsert/lookup store": the rows of the handle's
local peer ID whose remote peer ID is among `peerIDs`, collected into a map from
remote peer ID to announcement. -/
def ReadAnnouncements (d : DiscovererDatabase) (peerIDs : List String)
    (db : Table) : Announcements :=
  (db.filter (fun r => r.local_peer_id = d.peerID ∧ r.remote_peer_id ∈ peerIDs)).foldl
    (fun m r => m.set r.remote_peer_id r.ann) []

/-- The announcement the table holds for the pair (local peer ID, remote peer ID). -/
def Table.find (db : Table) (localID remoteID : String) : Option Bytes :=
  (db.find? (fun r => r.local_peer_id = localID ∧ r.remote_peer_id = remoteID)).map
    (fun r => r.ann)

/-- The (local peer ID, remote peer ID) pairs of the rows of a table. -/
def Table.keys (db : Table) : List (String × String) :=
  db.map (fun r => (r.local_peer_id, r.remote_peer_id))

/-- A `StoreAnnouncement` call: local peer ID of the handle, remote peer ID, announcement. -/
structure StoreCall where
  local_peer_id : String
  remote_peer_id : String
  ann : Bytes
  deriving DecidableEq, Repr

/-- The database after a sequence of `StoreAnnouncement` calls, each made through some
handle with the local peer ID of the call. -/
def applyStores (calls : List StoreCall) (db : Table) : Table :=
  calls.foldl (fun db c =>
    StoreAnnouncement (NewDiscovererDatabase 0 c.local_peer_id) c.remote_peer_id c.ann db) db

/-- The announcement most recently stored for (local peer ID, remote peer ID) by a
sequence of calls, if any. -/
def lastStored (calls : List StoreCall) (localID remoteID : String) : Option Bytes :=
  (calls.reverse.find? (fun c => c.local_peer_id = localID ∧ c.remote_peer_id = remoteID)).map
    (fun c => c.ann)

/-- The stores of `Test_DiscovererDatabase`, in order, for local peers `p1` and `p2`. -/
def testCalls (p1 p2 : String) : List StoreCall :=
  [⟨p1, "remote1", [1, 2, 3]⟩, ⟨p1, "remote1", [4, 5, 6]⟩, ⟨p1, "remote2", [7, 8, 9]⟩,
   ⟨p2, "remote1", [10, 11, 12]⟩]

end Ocrcommon

/-! # Properties -/

namespace Ocrcommon

/-- The reads of `Test_DiscovererDatabase` give the values the test asserts. -/
theorem test_DiscovererDatabase_replay :
    let db1 := applyStores ((testCalls "P1" "P2").take 3) []
    let db2 := applyStores (testCalls "P1" "P2") []
    ReadAnnouncements (NewDiscovererDatabase 1 "P1") ["remote1", "remote2"] db1
        = [("remote1", [4, 5, 6]), ("remote2", [7, 8, 9])]
      ∧ ReadAnnouncements (NewDiscovererDatabase 1 "P1") ["remote1"] db1
        = [("remote1", [4, 5, 6])]
      ∧ ReadAnnouncements (NewDiscovererDatabase 2 "P2") ["remote1"] db2
        = [("remote1", [10, 11, 12])]
      ∧ ReadAnnouncements (NewDiscovererDatabase 1 "P1") ["remote1"] db2
        = [("remote1", [4, 5, 6])]
      ∧ ReadAnnouncements (NewDiscovererDatabase 3 "P1") ["remote1"] db2
        = [("remote1", [4, 5, 6])] := by
  decide

end Ocrcommon

namespace Builder

/-- C1: in `NewTxm` the forwarder manager is an optional component.  For every
configuration, the `fwdMgr` handed to `txmgr.NewTxm` is the object built by
`forwarders.NewFwdMgr(db, client, logPoller, lggr, cfg)` if and only if
`cfg.EvmUseForwarders()` is true, it is nil if and only if `cfg.EvmUseForwarders()`
is false, and `NewFwdMgr` is called in exactly the first case. -/
theorem fwdMgr_present_iff_EvmUseForwarders (D : Int) (next : Nat) (db : DB) (cfg : Config)
    (client : Client) (lggr : Logger) (logPoller : LogPoller) (keyStore : KeyStore)
    (eventBroadcaster : EventBroadcaster) (estimator : Estimator) :
    ((NewTxm D next db cfg client lggr logPoller keyStore eventBroadcaster estimator).txm.fwdMgr
        = some { id := next, db := db, client := client, logPoller := logPoller,
                 lggr := lggr, cfg := cfg }
      ↔ cfg.EvmUseForwarders = true)
    ∧ ((NewTxm D next db cfg client lggr logPoller keyStore eventBroadcaster estimator).txm.fwdMgr
        = none
      ↔ cfg.EvmUseForwarders = false)
    ∧ ((∃ id, Event.NewFwdMgr id ∈
          (NewTxm D next db cfg client lggr logPoller keyStore eventBroadcaster estimator).events)
      ↔ cfg.EvmUseForwarders = true) := by
  rcases cfg with ⟨ref, useFwd, resendAfter, autoSync⟩
  cases useFwd <;> by_cases h : resendAfter > 0 <;> simp [NewTxm, h]

/-- C2: in `NewTxm` the resender is an optional component.  For every configuration,
the `ethResender` handed to `txmgr.NewTxm` is the object built by
`txmgr.NewEthResender` with `txmgr.DefaultResenderPollInterval` over the manager's
own store and the given logger, client, key store and configuration if and only if
`cfg.EthTxResendAfterThreshold()` is strictly greater than zero; it is nil if and
only if the threshold is zero or negative, and `NewEthResender` is called in exactly
the first case. -/
theorem ethResender_present_iff_threshold_pos (DefaultResenderPollInterval : Int)
    (next : Nat) (db : DB) (cfg : Config) (client : Client) (lggr : Logger)
    (logPoller : LogPoller) (keyStore : KeyStore) (eventBroadcaster : EventBroadcaster)
    (estimator : Estimator) :
    let r := NewTxm DefaultResenderPollInterval next db cfg client lggr logPoller keyStore
      eventBroadcaster estimator
    (r.txm.ethResender
        = some { id := r.txm.ethConfirmer.id + 1, lggr := lggr, txStore := r.txm.txStore,
                 client := client, keyStore := keyStore,
                 pollInterval := DefaultResenderPollInterval, cfg := cfg }
      ↔ 0 < cfg.EthTxResendAfterThreshold)
    ∧ (r.txm.ethResender = none ↔ cfg.EthTxResendAfterThreshold ≤ 0)
    ∧ ((∃ id, Event.NewEthResender id ∈ r.events) ↔ 0 < cfg.EthTxResendAfterThreshold)
    ∧ r.txm.txStore = r.txm.ethBroadcaster.txStore
    ∧ r.txm.client = client ∧ r.txm.keyStore = keyStore := by
  rcases cfg with ⟨ref, useFwd, resendAfter, autoSync⟩
  cases useFwd <;> by_cases h : resendAfter > 0 <;> simp [NewTxm, h] <;> omega

/-- C3: all workers built by `NewTxm` share one transaction store.  For every input,
`txmgr.NewTxStore` is called exactly once, the store it returns is the manager's
store, and every store reachable from the manager (held by the nonce syncer, the
broadcaster, the confirmer and, when present, the resender) is that very store;
the broadcaster, the confirmer and the manager hold the same attempt builder, and
the broadcaster and the manager the same nonce syncer and the same checker. -/
theorem workers_share_one_txStore (D : Int) (next : Nat) (db : DB) (cfg : Config)
    (client : Client) (lggr : Logger) (logPoller : LogPoller) (keyStore : KeyStore)
    (eventBroadcaster : EventBroadcaster) (estimator : Estimator) :
    let r := NewTxm D next db cfg client lggr logPoller keyStore eventBroadcaster estimator
    (∃ id, storeCalls r.events = [id]
        ∧ r.txm.txStore = { id := id, db := db, lggr := lggr, cfg := cfg })
    ∧ r.txm.stores
        = List.replicate (if 0 < cfg.EthTxResendAfterThreshold then 6 else 5) r.txm.txStore
    ∧ r.txm.txNonceSyncer.map (fun s => s.txStore) = some r.txm.txStore
    ∧ r.txm.ethBroadcaster.txStore = r.txm.txStore
    ∧ r.txm.ethConfirmer.txStore = r.txm.txStore
    ∧ r.txm.ethResender.map (fun s => s.txStore)
        = (if 0 < cfg.EthTxResendAfterThreshold then some r.txm.txStore else none)
    ∧ r.txm.ethBroadcaster.txAttemptBuilder = r.txm.txAttemptBuilder
    ∧ r.txm.ethConfirmer.txAttemptBuilder = r.txm.txAttemptBuilder
    ∧ r.txm.ethBroadcaster.txNonceSyncer = r.txm.txNonceSyncer
    ∧ r.txm.ethBroadcaster.checker = r.txm.checker := by
  rcases cfg with ⟨ref, useFwd, resendAfter, autoSync⟩
  cases useFwd <;> by_cases h : resendAfter > 0 <;>
    simp [NewTxm, storeCalls, EvmTxManager.stores, List.replicate, h]

/-- C4, as stated, fails: with `EvmNonceAutoSync()` false the nonce syncer is still
constructed and handed to both the broadcaster and the manager. -/
theorem nonceSyncer_present_when_autoSync_off :
    (exampleCfg false 0 false).EvmNonceAutoSync = false
    ∧ (exampleRun (exampleCfg false 0 false)).txm.txNonceSyncer
        = some { id := 3, txStore := { id := 2, db := ⟨1⟩, lggr := ⟨3⟩,
                                       cfg := exampleCfg false 0 false },
                 lggr := ⟨3⟩, client := ⟨2, 1337⟩, keyStore := ⟨5⟩ }
    ∧ (exampleRun (exampleCfg false 0 false)).txm.ethBroadcaster.txNonceSyncer
        = (exampleRun (exampleCfg false 0 false)).txm.txNonceSyncer
    ∧ Event.NewNonceSyncer 3 ∈ (exampleRun (exampleCfg false 0 false)).events
    ∧ ¬ (((exampleRun (exampleCfg false 0 false)).txm.txNonceSyncer ≠ none
          ∧ (exampleRun (exampleCfg false 0 false)).txm.ethBroadcaster.txNonceSyncer ≠ none)
        ↔ (exampleCfg false 0 false).EvmNonceAutoSync = true) := by
  decide

/-- C4, amended: for every configuration `NewTxm` constructs the nonce syncer, over
the shared store and the given logger, client and key store, and hands that one
object to both the broadcaster and the manager, whatever `cfg.EvmNonceAutoSync()`
is; the toggle reaches the broadcaster as the boolean argument
`cfg.EvmNonceAutoSync()`. -/
theorem nonceSyncer_always_built_flag_passed (D : Int) (next : Nat) (db : DB) (cfg : Config)
    (client : Client) (lggr : Logger) (logPoller : LogPoller) (keyStore : KeyStore)
    (eventBroadcaster : EventBroadcaster) (estimator : Estimator) :
    let r := NewTxm D next db cfg client lggr logPoller keyStore eventBroadcaster estimator
    (∃ id, Event.NewNonceSyncer id ∈ r.events
        ∧ r.txm.txNonceSyncer
            = some { id := id, txStore := r.txm.txStore, lggr := lggr, client := client,
                     keyStore := keyStore }
        ∧ r.txm.ethBroadcaster.txNonceSyncer = r.txm.txNonceSyncer)
    ∧ r.txm.ethBroadcaster.autoSyncNonce = cfg.EvmNonceAutoSync := by
  rcases cfg with ⟨ref, useFwd, resendAfter, autoSync⟩
  cases useFwd <;> by_cases h : resendAfter > 0 <;> simp [NewTxm, h]

end Builder

namespace Configtest

/-- Two big integers compare equal under `Cmp` exactly when they are equal. -/
theorem Cmp_eq_zero_iff (a b : Int) : Cmp a b = 0 ↔ a = b := by
  unfold Cmp
  by_cases h1 : a < b
  · simp [h1]; omega
  · by_cases h2 : a = b <;> simp [h1, h2]

/-- The settings `overrides` leaves in the configuration and the secrets. -/
theorem overrides_eq (x : Externals) (c : Config) (s : Secrets) :
    overrides x c s =
      ({ Insecure := { OCRDevelopmentMode := some true }
         InsecureFastScrypt := some true
         ShutdownGracePeriod := some x.DefaultWaitTimeout
         Database := { Dialect := x.TransactionWrappedPostgres
                       Lock := { Enabled := some false }
                       MaxIdleConns := some 20
                       MaxOpenConns := some 20
                       MigrateOnStartup := some false
                       DefaultLockTimeout := some 60000000000 }
         JobPipeline := { ReaperInterval := some 0 }
         P2P := { V2 := { Enabled := some false } }
         WebServer := { SessionTimeout := some 120000000000
                        BridgeResponseURL := some (URL.MustParseURL "http://localhost:6688")
                        ListenIP := some (IP.ParseIP "127.0.0.1")
                        TLS := { ListenIP := some (IP.ParseIP "127.0.0.1") } }
         EVM := c.EVM ++ [nullChain x]
         RootDir := c.RootDir },
       { Password := { Keystore := some "dummy-to-pass-validation" } }) := by
  simp [overrides, Minute]

/-- C5: `NewGeneralConfig` applies the default test overrides before the caller's
`overrideFn`.  For every `overrideFn` and every starting configuration and secrets,
the installed `OverrideFn` is `overrides`, then the assignment of the temporary
directory to `RootDir`, then `overrideFn`: the configuration `overrideFn` receives
carries the defaults, the null chain appended to the EVM list and `RootDir`; whatever
`overrideFn` establishes holds of the final result; and with a nil `overrideFn` the
result is `overrides` followed by the `RootDir` assignment. -/
theorem NewGeneralConfig_defaults_before_overrideFn (x : Externals) (tempDir : String)
    (fn : OverrideFunc) (c : Config) (s : Secrets) :
    NewGeneralConfig_OverrideFn x tempDir (some fn) c s
        = fn { (overrides x c s).1 with RootDir := some tempDir } (overrides x c s).2
    ∧ NewGeneralConfig_OverrideFn x tempDir none c s
        = ({ (overrides x c s).1 with RootDir := some tempDir }, (overrides x c s).2)
    ∧ NewTestGeneralConfig_OverrideFn x tempDir c s
        = ({ (overrides x c s).1 with RootDir := some tempDir }, (overrides x c s).2)
    ∧ ({ (overrides x c s).1 with RootDir := some tempDir } : Config) =
        { Insecure := { OCRDevelopmentMode := some true }
          InsecureFastScrypt := some true
          ShutdownGracePeriod := some x.DefaultWaitTimeout
          Database := { Dialect := x.TransactionWrappedPostgres
                        Lock := { Enabled := some false }
                        MaxIdleConns := some 20
                        MaxOpenConns := some 20
                        MigrateOnStartup := some false
                        DefaultLockTimeout := some 60000000000 }
          JobPipeline := { ReaperInterval := some 0 }
          P2P := { V2 := { Enabled := some false } }
          WebServer := { SessionTimeout := some 120000000000
                         BridgeResponseURL := some (URL.MustParseURL "http://localhost:6688")
                         ListenIP := some (IP.ParseIP "127.0.0.1")
                         TLS := { ListenIP := some (IP.ParseIP "127.0.0.1") } }
          EVM := c.EVM ++ [{ ChainID := x.NullClientChainID
                             Enabled := none
                             Chain := x.Defaults x.NullClientChainID
                             Nodes := [{ Name := some "test", WSURL := some URL.zero,
                                         HTTPURL := some URL.zero, SendOnly := some false,
                                         Order := some 100 }] }]
          RootDir := some tempDir }
    ∧ (overrides x c s).2 = { Password := { Keystore := some "dummy-to-pass-validation" } }
    ∧ (∀ (α : Type) (field : Config × Secrets → α) (v : α),
        (∀ c1 s1, field (fn c1 s1) = v) →
          field (NewGeneralConfig_OverrideFn x tempDir (some fn) c s) = v) := by
  refine ⟨rfl, rfl, rfl, ?_, ?_, ?_⟩
  · simp [overrides_eq, nullChain]
  · simp [overrides_eq]
  · intro α field v h
    exact h _ _

/-- C6: `simulated` appends the simulated EVM chain, or replaces the null chain if
that is the only entry.  For every configuration, when the EVM list has exactly one
entry and its chain ID compares equal to `NullClientChainID`, the list becomes the
one-element list holding the simulated chain (chain ID `SimulatedChainID`, enabled,
nodes `[validTestNode]`); in every other case the simulated chain is appended after
the old list.  Nothing else in the configuration or the secrets changes. -/
theorem simulated_replaces_sole_null_chain_else_appends (x : Externals) (c : Config)
    (s : Secrets) :
    simulated x c s =
      ({ c with EVM :=
          if c.EVM.length = 1 ∧ (∀ e ∈ c.EVM, Cmp e.ChainID x.NullClientChainID = 0) then
            [{ ChainID := x.SimulatedChainID, Enabled := some true,
               Chain := x.Defaults x.SimulatedChainID, Nodes := [validTestNode] }]
          else
            c.EVM ++ [{ ChainID := x.SimulatedChainID, Enabled := some true,
                        Chain := x.Defaults x.SimulatedChainID, Nodes := [validTestNode] }] },
       s) := by
  rcases c with ⟨i, f, g, d, j, p, w, evm, r⟩
  match evm with
  | [] => simp [simulated, simulatedChain]
  | [e] =>
    by_cases h : Cmp e.ChainID x.NullClientChainID = 0 <;> simp [simulated, simulatedChain, h]
  | e1 :: e2 :: rest => simp [simulated, simulatedChain]

/-- C7: `overrides` adds one default chain with `NullClientChainID` and disturbs no
existing chain.  For every configuration with EVM list `L`, afterwards the EVM list
is `L` followed by exactly one new entry, whose chain ID equals `NullClientChainID`
and which has exactly one node, named "test" with order 100; the length grows by
one and the first `len(L)` entries are unchanged. -/
theorem overrides_appends_null_chain (x : Externals) (c : Config) (s : Secrets) :
    (∃ e n, (overrides x c s).1.EVM = c.EVM ++ [e]
        ∧ e.ChainID = x.NullClientChainID
        ∧ Cmp e.ChainID x.NullClientChainID = 0
        ∧ e.Nodes = [n] ∧ n.Name = some "test" ∧ n.Order = some 100)
    ∧ (overrides x c s).1.EVM.length = c.EVM.length + 1
    ∧ (overrides x c s).1.EVM.take c.EVM.length = c.EVM
    ∧ (∀ i : Fin c.EVM.length, (overrides x c s).1.EVM[i.val]? = some (c.EVM.get i)) := by
  refine ⟨⟨nullChain x, _, ?_, rfl, ?_, rfl, rfl, rfl⟩, ?_, ?_, ?_⟩
  · simp [overrides_eq]
  · simp [Cmp_eq_zero_iff, nullChain]
  · simp [overrides_eq]
  · simp [overrides_eq]
  · intro i
    simp [overrides_eq, List.getElem?_append_left i.isLt]

end Configtest

namespace Ocrcommon

/-- Rewriting the announcement of the rows of one pair changes what the table holds
for that pair only. -/
theorem find_map_update (db : Table) (L R : String) (ann : Bytes) (localID remoteID : String) :
    Table.find (db.map (fun r =>
        if r.local_peer_id = L ∧ r.remote_peer_id = R then { r with ann := ann } else r))
      localID remoteID =
      if L = localID ∧ R = remoteID then (Table.find db localID remoteID).map (fun _ => ann)
      else Table.find db localID remoteID := by
  induction db with
  | nil => simp [Table.find]
  | cons r rest ih =>
    simp only [Table.find] at ih ⊢
    by_cases hr : r.local_peer_id = L ∧ r.remote_peer_id = R
    · by_cases hk : L = localID ∧ R = remoteID
      · obtain ⟨h1, h2⟩ := hr
        obtain ⟨h3, h4⟩ := hk
        subst h3 h4
        simp [List.find?, h1, h2]
      · have hne : ¬ (r.local_peer_id = localID ∧ r.remote_peer_id = remoteID) := by
          rintro ⟨h1, h2⟩
          exact hk ⟨hr.1.symm.trans h1, hr.2.symm.trans h2⟩
        simp only [List.map_cons, if_pos hr, if_neg hk] at ih ⊢
        simp only [List.find?, hne, decide_False]
        exact ih
    · simp only [List.map_cons, if_neg hr]
      by_cases hm : r.local_peer_id = localID ∧ r.remote_peer_id = remoteID
      · have hk : ¬ (L = localID ∧ R = remoteID) := by
          rintro ⟨h1, h2⟩
          exact hr ⟨hm.1.trans h1.symm, hm.2.trans h2.symm⟩
        simp [List.find?, hm, hk]
      · simp only [List.find?, hm, decide_False]
        exact ih

/-- A table with a row for a pair holds an announcement for it. -/
theorem find_isSome_iff_any (db : Table) (L R : String) :
    (Table.find db L R).isSome = db.any (fun r => r.local_peer_id = L ∧ r.remote_peer_id = R) := by
  induction db with
  | nil => simp [Table.find]
  | cons r rest ih =>
    simp only [Table.find] at ih ⊢
    by_cases hr : r.local_peer_id = L ∧ r.remote_peer_id = R
    · simp [List.find?, hr]
    · simp only [List.find?, hr, decide_False, List.any_cons, Bool.false_or]
      exact ih

/-- After a store, the table holds the stored announcement for the pair of the call
and what it held before for every other pair. -/
theorem find_StoreAnnouncement (d : DiscovererDatabase) (peerID : String) (ann : Bytes)
    (db : Table) (localID remoteID : String) :
    Table.find (StoreAnnouncement d peerID ann db) localID remoteID =
      if d.peerID = localID ∧ peerID = remoteID then some ann
      else Table.find db localID remoteID := by
  unfold StoreAnnouncement
  split
  · rename_i hany
    rw [find_map_update]
    by_cases hk : d.peerID = localID ∧ peerID = remoteID
    · obtain ⟨h3, h4⟩ := hk
      subst h3 h4
      have := find_isSome_iff_any db d.peerID peerID
      rw [hany] at this
      obtain ⟨a, ha⟩ := Option.isSome_iff_exists.mp this
      simp [ha]
    · simp [hk]
  · rename_i hany
    have hnone : Table.find db d.peerID peerID = none := by
      have h := find_isSome_iff_any db d.peerID peerID
      cases hf : Table.find db d.peerID peerID with
      | none => rfl
      | some a =>
        rw [hf] at h
        exact absurd h.symm hany
    by_cases hk : d.peerID = localID ∧ peerID = remoteID
    · obtain ⟨h3, h4⟩ := hk
      subst h3 h4
      simp only [Table.find] at hnone ⊢
      simp only [Option.map_eq_none'] at hnone
      rw [List.find?_append, hnone]
      simp [List.find?]
    · simp only [Table.find, List.find?_append, if_neg hk]
      have : ¬ (d.peerID = localID ∧ peerID = remoteID) := hk
      simp [List.find?, this]

end Ocrcommon

namespace Ocrcommon

/-- After a sequence of stores the table holds, for each pair, the announcement most
recently stored for it, or what it held before when the pair was never stored. -/
theorem find_applyStores (calls : List StoreCall) (db : Table) (localID remoteID : String) :
    Table.find (applyStores calls db) localID remoteID =
      match lastStored calls localID remoteID with
      | some a => some a
      | none => Table.find db localID remoteID := by
  induction calls generalizing db with
  | nil => simp [applyStores, lastStored]
  | cons c rest ih =>
    have hstep : applyStores (c :: rest) db =
        applyStores rest (StoreAnnouncement (NewDiscovererDatabase 0 c.local_peer_id)
          c.remote_peer_id c.ann db) := rfl
    rw [hstep, ih, find_StoreAnnouncement]
    simp only [lastStored, List.reverse_cons, List.find?_append, NewDiscovererDatabase]
    cases hf : List.find? (fun c => decide (c.local_peer_id = localID ∧ c.remote_peer_id = remoteID))
        rest.reverse with
    | some a => simp
    | none =>
      by_cases hk : c.local_peer_id = localID ∧ c.remote_peer_id = remoteID
      · simp [List.find?, hk]
      · simp [List.find?, hk]

/-- A store keeps the pairs of the table distinct. -/
theorem keys_nodup_StoreAnnouncement (d : DiscovererDatabase) (peerID : String) (ann : Bytes)
    (db : Table) (h : (Table.keys db).Nodup) :
    (Table.keys (StoreAnnouncement d peerID ann db)).Nodup := by
  unfold StoreAnnouncement
  split
  · have hk : Table.keys (db.map (fun r =>
        if r.local_peer_id = d.peerID ∧ r.remote_peer_id = peerID then { r with ann := ann }
        else r)) = Table.keys db := by
      simp only [Table.keys, List.map_map]
      apply List.map_congr_left
      intro r _
      by_cases hr : r.local_peer_id = d.peerID ∧ r.remote_peer_id = peerID <;> simp [hr]
    rw [hk]
    exact h
  · rename_i hany
    simp only [Table.keys, List.map_append, List.map_cons, List.map_nil]
    rw [List.nodup_append]
    refine ⟨h, List.nodup_singleton _, ?_⟩
    intro k hk1 hk2
    simp only [List.mem_singleton] at hk2
    subst hk2
    simp only [List.mem_map, Prod.mk.injEq] at hk1
    obtain ⟨r, hr, hkey⟩ := hk1
    apply hany
    simp only [List.any_eq_true, decide_eq_true_eq]
    exact ⟨r, hr, hkey⟩

/-- The pairs of a table built by stores from the empty table are distinct. -/
theorem keys_nodup_applyStores (calls : List StoreCall) (db : Table)
    (h : (Table.keys db).Nodup) : (Table.keys (applyStores calls db)).Nodup := by
  induction calls generalizing db with
  | nil => exact h
  | cons c rest ih => exact ih _ (keys_nodup_StoreAnnouncement _ _ _ _ h)

end Ocrcommon

namespace Ocrcommon

/-- Assigning a key the map does not have appends the entry. -/
theorem set_of_not_mem (m : Announcements) (k : String) (v : Bytes)
    (h : k ∉ m.map Prod.fst) : m.set k v = m ++ [(k, v)] := by
  unfold Announcements.set
  have hany : (m.any (fun e => e.1 = k)) = false := by
    rw [Bool.eq_false_iff]
    intro hc
    simp only [List.any_eq_true, decide_eq_true_eq] at hc
    obtain ⟨e, he, hek⟩ := hc
    exact h (List.mem_map.mpr ⟨e, he, hek⟩)
  simp [hany]

/-- Collecting rows with distinct remote peer IDs into a map lists them in order. -/
theorem foldl_set_of_nodup (rows : List Row) (m : Announcements)
    (h : (m.map Prod.fst ++ rows.map (fun r => r.remote_peer_id)).Nodup) :
    rows.foldl (fun m r => m.set r.remote_peer_id r.ann) m
      = m ++ rows.map (fun r => (r.remote_peer_id, r.ann)) := by
  induction rows generalizing m with
  | nil => simp
  | cons r rest ih =>
    have hnot : r.remote_peer_id ∉ m.map Prod.fst := by
      intro hmem
      rw [List.nodup_append] at h
      exact h.2.2 hmem (by simp)
    simp only [List.foldl_cons, set_of_not_mem m _ _ hnot]
    rw [ih]
    · simp
    · simpa using h

/-- Rows of one local peer taken from a table with distinct pairs have distinct
remote peer IDs. -/
theorem remote_nodup_of_keys_nodup (db : Table) (P : String) (ids : List String)
    (h : (Table.keys db).Nodup) :
    ((db.filter (fun r => r.local_peer_id = P ∧ r.remote_peer_id ∈ ids)).map
      (fun r => r.remote_peer_id)).Nodup := by
  have hsub : ((db.filter (fun r => r.local_peer_id = P ∧ r.remote_peer_id ∈ ids)).map
      (fun r => (r.local_peer_id, r.remote_peer_id))).Nodup :=
    List.Nodup.sublist (List.Sublist.map _ (List.filter_sublist db)) h
  have heq : (db.filter (fun r => r.local_peer_id = P ∧ r.remote_peer_id ∈ ids)).map
      (fun r => (r.local_peer_id, r.remote_peer_id))
      = ((db.filter (fun r => r.local_peer_id = P ∧ r.remote_peer_id ∈ ids)).map
          (fun r => r.remote_peer_id)).map (fun x => (P, x)) := by
    rw [List.map_map]
    apply List.map_congr_left
    intro r hr
    have := (List.mem_filter.mp hr).2
    simp only [decide_eq_true_eq] at this
    simp [this.1]
  rw [heq] at hsub
  exact List.Nodup.of_map _ hsub

/-- On a table with distinct pairs, a read lists the requested rows of the local
peer, in table order. -/
theorem ReadAnnouncements_eq_map (d : DiscovererDatabase) (ids : List String) (db : Table)
    (h : (Table.keys db).Nodup) :
    ReadAnnouncements d ids db
      = (db.filter (fun r => r.local_peer_id = d.peerID ∧ r.remote_peer_id ∈ ids)).map
          (fun r => (r.remote_peer_id, r.ann)) := by
  unfold ReadAnnouncements
  rw [foldl_set_of_nodup]
  · simp
  · simpa using remote_nodup_of_keys_nodup db d.peerID ids h

/-- On a table with distinct pairs, a read maps a requested remote peer ID to what the
table holds for it under the local peer, and has no entry for any other ID. -/
theorem ReadAnnouncements_get (d : DiscovererDatabase) (ids : List String) (db : Table)
    (h : (Table.keys db).Nodup) (id : String) :
    (ReadAnnouncements d ids db).get id
      = if id ∈ ids then Table.find db d.peerID id else none := by
  rw [ReadAnnouncements_eq_map d ids db h]
  unfold Announcements.get Table.find
  clear h
  induction db with
  | nil => simp
  | cons r rest ih =>
    by_cases hin : id ∈ ids
    · simp only [if_pos hin] at ih ⊢
      by_cases hr : r.local_peer_id = d.peerID ∧ r.remote_peer_id = id
      · obtain ⟨h1, h2⟩ := hr
        subst h2
        simp [List.filter, List.find?, h1, hin]
      · by_cases hf : r.local_peer_id = d.peerID ∧ r.remote_peer_id ∈ ids
        · have hne : ¬ r.remote_peer_id = id := fun hc => hr ⟨hf.1, hc⟩
          simp only [List.filter, hf, and_self, decide_True, List.map_cons, List.find?, hne,
            decide_False, hr]
          exact ih
        · simp only [List.filter, hf, decide_False, List.find?, hr]
          exact ih
    · simp only [if_neg hin] at ih ⊢
      by_cases hf : r.local_peer_id = d.peerID ∧ r.remote_peer_id ∈ ids
      · have hne : ¬ r.remote_peer_id = id := fun hc => hin (hc ▸ hf.2)
        simp only [List.filter, hf, and_self, decide_True, List.map_cons, List.find?, hne,
          decide_False]
        exact ih
      · simp only [List.filter, hf, decide_False]
        exact ih

end Ocrcommon

namespace Ocrcommon

/-- Rewriting announcements commutes with selecting the rows of a local peer. -/
theorem filter_map_update (db : Table) (L R : String) (ann : Bytes) (P : String) :
    (db.map (fun r =>
        if r.local_peer_id = L ∧ r.remote_peer_id = R then { r with ann := ann } else r)).filter
        (fun r => r.local_peer_id = P)
      = (db.filter (fun r => r.local_peer_id = P)).map (fun r =>
          if r.local_peer_id = L ∧ r.remote_peer_id = R then { r with ann := ann } else r) := by
  induction db with
  | nil => rfl
  | cons r rest ih =>
    by_cases hl : r.local_peer_id = P
    · have h1 : (if r.local_peer_id = L ∧ r.remote_peer_id = R then { r with ann := ann }
          else r).local_peer_id = P := by
        split <;> exact hl
      rw [List.map_cons, List.filter_cons_of_pos (by simpa using h1),
        List.filter_cons_of_pos (by simpa using hl), List.map_cons, ih]
    · have h1 : ¬ (if r.local_peer_id = L ∧ r.remote_peer_id = R then { r with ann := ann }
          else r).local_peer_id = P := by
        split <;> exact hl
      rw [List.map_cons, List.filter_cons_of_neg (by simpa using h1),
        List.filter_cons_of_neg (by simpa using hl), ih]

/-- Selecting the rows of a local peer keeps the test for a pair of that peer. -/
theorem any_filter_local (db : Table) (P R : String) :
    (db.filter (fun r => r.local_peer_id = P)).any
        (fun r => r.local_peer_id = P ∧ r.remote_peer_id = R)
      = db.any (fun r => r.local_peer_id = P ∧ r.remote_peer_id = R) := by
  induction db with
  | nil => rfl
  | cons r rest ih =>
    by_cases hl : r.local_peer_id = P
    · rw [List.filter_cons_of_pos (by simpa using hl), List.any_cons, List.any_cons, ih]
    · rw [List.filter_cons_of_neg (by simpa using hl), List.any_cons, ih]
      simp [hl]

/-- A store under one local peer ID leaves the rows of every other local peer as they
were; on the rows of its own local peer it acts as on the whole table. -/
theorem filter_StoreAnnouncement (d : DiscovererDatabase) (peerID : String) (ann : Bytes)
    (db : Table) (P : String) :
    (StoreAnnouncement d peerID ann db).filter (fun r => r.local_peer_id = P)
      = if d.peerID = P then
          StoreAnnouncement d peerID ann (db.filter (fun r => r.local_peer_id = P))
        else db.filter (fun r => r.local_peer_id = P) := by
  by_cases hP : d.peerID = P
  · rw [if_pos hP]
    subst hP
    unfold StoreAnnouncement
    rw [any_filter_local]
    split
    · exact filter_map_update db d.peerID peerID ann d.peerID
    · simp [List.filter_append, List.filter]
  · rw [if_neg hP]
    unfold StoreAnnouncement
    split
    · rw [filter_map_update]
      conv_rhs => rw [← List.map_id (List.filter (fun r => decide (r.local_peer_id = P)) db)]
      apply List.map_congr_left
      intro r hr
      have hl : r.local_peer_id = P := by simpa using (List.mem_filter.mp hr).2
      have hne : ¬ (r.local_peer_id = d.peerID ∧ r.remote_peer_id = peerID) :=
        fun hc => hP (hc.1.symm.trans hl)
      simp [hne]
    · simp [List.filter_append, List.filter, hP]

/-- The rows of one local peer after a sequence of stores are those the stores made
under that local peer ID produce on their own. -/
theorem filter_applyStores (calls : List StoreCall) (db : Table) (P : String) :
    (applyStores calls db).filter (fun r => r.local_peer_id = P)
      = applyStores (calls.filter (fun c => c.local_peer_id = P))
          (db.filter (fun r => r.local_peer_id = P)) := by
  induction calls generalizing db with
  | nil => rfl
  | cons c rest ih =>
    have hstep : applyStores (c :: rest) db =
        applyStores rest (StoreAnnouncement (NewDiscovererDatabase 0 c.local_peer_id)
          c.remote_peer_id c.ann db) := rfl
    rw [hstep, ih, filter_StoreAnnouncement]
    by_cases hc : c.local_peer_id = P
    · rw [List.filter_cons_of_pos (by simpa using hc)]
      simp only [NewDiscovererDatabase, hc, if_true]
      subst hc
      rfl
    · rw [List.filter_cons_of_neg (by simpa using hc)]
      simp only [NewDiscovererDatabase, hc, if_false]

/-- A read looks only at the rows of the local peer of the handle. -/
theorem ReadAnnouncements_filter_local (d : DiscovererDatabase) (ids : List String)
    (db : Table) :
    ReadAnnouncements d ids (db.filter (fun r => r.local_peer_id = d.peerID))
      = ReadAnnouncements d ids db := by
  unfold ReadAnnouncements
  congr 1
  rw [List.filter_filter]
  apply List.filter_congr
  intro r _
  by_cases h1 : r.local_peer_id = d.peerID <;> simp [h1]

/-- The keys of a read are the requested remote peer IDs the table has a row for
under the local peer. -/
theorem mem_keys_ReadAnnouncements (d : DiscovererDatabase) (ids : List String) (db : Table)
    (h : (Table.keys db).Nodup) (id : String) :
    id ∈ (ReadAnnouncements d ids db).map Prod.fst
      ↔ id ∈ ids ∧ (Table.find db d.peerID id).isSome = true := by
  rw [ReadAnnouncements_eq_map d ids db h, find_isSome_iff_any]
  simp only [List.map_map, List.mem_map, List.mem_filter, decide_eq_true_eq, Function.comp,
    List.any_eq_true]
  constructor
  · rintro ⟨r, ⟨hr, hl, hin⟩, rfl⟩
    exact ⟨hin, r, hr, hl, rfl⟩
  · rintro ⟨hin, r, hr, hl, rfl⟩
    exact ⟨r, ⟨hr, hl, hin⟩, rfl⟩

end Ocrcommon

namespace Ocrcommon

/-- C8: the discoverer announcement store is an upsert/lookup map keyed by (local
peer ID, remote peer ID).  After any sequence of `StoreAnnouncement` calls on an
empty database, `ReadAnnouncements(ids)` through a handle with local peer ID `P`
maps each requested id that was stored under `P` to the announcement most recently
stored for `(P, id)` and has no entry for any other id; its keys are distinct, so
it has exactly one entry per such id; it is the same as if the calls under other
local peer IDs had never been made; and any other handle with local peer ID `P`
reads the same map. -/
theorem ReadAnnouncements_upsert_lookup (calls : List StoreCall) (P : String)
    (ids : List String) (handle : Nat) :
    (∀ id, (ReadAnnouncements (NewDiscovererDatabase handle P) ids (applyStores calls [])).get id
        = if id ∈ ids then lastStored calls P id else none)
    ∧ ((ReadAnnouncements (NewDiscovererDatabase handle P) ids
          (applyStores calls [])).map Prod.fst).Nodup
    ∧ (∀ id, id ∈ (ReadAnnouncements (NewDiscovererDatabase handle P) ids
          (applyStores calls [])).map Prod.fst
        ↔ id ∈ ids ∧ (lastStored calls P id).isSome = true)
    ∧ (ReadAnnouncements (NewDiscovererDatabase handle P) ids (applyStores calls [])).length
        = (ids.dedup.filter (fun id => (lastStored calls P id).isSome)).length
    ∧ ReadAnnouncements (NewDiscovererDatabase handle P) ids (applyStores calls [])
        = ReadAnnouncements (NewDiscovererDatabase handle P) ids
            (applyStores (calls.filter (fun c => c.local_peer_id = P)) [])
    ∧ (∀ fresh, ReadAnnouncements (NewDiscovererDatabase fresh P) ids (applyStores calls [])
        = ReadAnnouncements (NewDiscovererDatabase handle P) ids (applyStores calls [])) := by
  have hnd : (Table.keys (applyStores calls [])).Nodup :=
    keys_nodup_applyStores calls [] (by simp [Table.keys])
  have hfind : ∀ id, Table.find (applyStores calls []) P id = lastStored calls P id := by
    intro id
    rw [find_applyStores]
    cases lastStored calls P id <;> simp [Table.find]
  have hmem : ∀ id, id ∈ (ReadAnnouncements (NewDiscovererDatabase handle P) ids
        (applyStores calls [])).map Prod.fst
      ↔ id ∈ ids ∧ (lastStored calls P id).isSome = true := by
    intro id
    rw [mem_keys_ReadAnnouncements _ _ _ hnd]
    simp only [NewDiscovererDatabase, hfind]
  have hkeys : ((ReadAnnouncements (NewDiscovererDatabase handle P) ids
        (applyStores calls [])).map Prod.fst).Nodup := by
    rw [ReadAnnouncements_eq_map _ _ _ hnd, List.map_map]
    exact remote_nodup_of_keys_nodup _ _ _ hnd
  refine ⟨?_, hkeys, hmem, ?_, ?_, ?_⟩
  · intro id
    rw [ReadAnnouncements_get _ _ _ hnd]
    simp only [NewDiscovererDatabase, hfind]
  · have hnd2 : (ids.dedup.filter (fun id => (lastStored calls P id).isSome)).Nodup :=
      List.Nodup.filter _ (List.nodup_dedup ids)
    have hperm := (List.perm_ext_iff_of_nodup hkeys hnd2).mpr (by
      intro id
      rw [hmem id]
      simp [List.mem_filter])
    simpa using hperm.length_eq
  · have h1 := ReadAnnouncements_filter_local (NewDiscovererDatabase handle P) ids
      (applyStores calls [])
    rw [← h1]
    simp only [NewDiscovererDatabase]
    rw [filter_applyStores]
    rfl
  · intro fresh
    rfl

end Ocrcommon

namespace Configtest

/-- On an EVM list holding only the null chain `simulated` replaces it; on an empty
list, on a single other chain and on two chains it appends. -/
theorem simulated_examples :
    (simulated exampleExternals { emptyConfig with EVM := [nullChain exampleExternals] }
        emptySecrets).1.EVM = [simulatedChain exampleExternals]
    ∧ (simulated exampleExternals emptyConfig emptySecrets).1.EVM
        = [simulatedChain exampleExternals]
    ∧ (simulated exampleExternals
        { emptyConfig with EVM := [{ nullChain exampleExternals with ChainID := 5 }] }
        emptySecrets).1.EVM
        = [{ nullChain exampleExternals with ChainID := 5 }, simulatedChain exampleExternals]
    ∧ (simulated exampleExternals
        { emptyConfig with EVM := [nullChain exampleExternals, nullChain exampleExternals] }
        emptySecrets).1.EVM
        = [nullChain exampleExternals, nullChain exampleExternals,
           simulatedChain exampleExternals] := by
  decide

/-- With the overrides of `NewGeneralConfigSimulated` on an empty configuration, the
simulated chain replaces the null chain that `overrides` added. -/
theorem NewGeneralConfigSimulated_example :
    (NewGeneralConfig_OverrideFn exampleExternals "/tmp/t"
        (some (NewGeneralConfigSimulated_overrideFn exampleExternals none))
        emptyConfig emptySecrets).1.EVM = [simulatedChain exampleExternals]
    ∧ (NewGeneralConfig_OverrideFn exampleExternals "/tmp/t"
        (some (NewGeneralConfigSimulated_overrideFn exampleExternals none))
        emptyConfig emptySecrets).1.RootDir = some "/tmp/t"
    ∧ (NewTestGeneralConfig_OverrideFn exampleExternals "/tmp/t" emptyConfig emptySecrets).1.EVM
        = [nullChain exampleExternals] := by
  decide

end Configtest

namespace Builder

/-- With forwarders on and a positive resend threshold both optional components are
built; with forwarders off and a zero threshold neither is, and the log line is
written. -/
theorem NewTxm_examples :
    (exampleRun (exampleCfg true 1 true)).events
        = [Event.NewFwdMgr 0, Event.CheckerFactory 1, Event.NewEvmTxAttemptBuilder 2,
           Event.NewTxStore 3, Event.NewNonceSyncer 4, Event.NewEthBroadcaster 5,
           Event.NewEthConfirmer 6, Event.NewEthResender 7, Event.NewTxm 8]
    ∧ (exampleRun (exampleCfg false 0 true)).events
        = [Event.Info ⟨3⟩ "EvmForwarderManager: Disabled", Event.CheckerFactory 0,
           Event.NewEvmTxAttemptBuilder 1, Event.NewTxStore 2, Event.NewNonceSyncer 3,
           Event.NewEthBroadcaster 4, Event.NewEthConfirmer 5, Event.NewTxm 6]
    ∧ (exampleRun (exampleCfg false 0 true)).txm.fwdMgr = none
    ∧ (exampleRun (exampleCfg false 0 true)).txm.ethResender = none
    ∧ (exampleRun (exampleCfg false (-1) true)).txm.ethResender = none
    ∧ (exampleRun (exampleCfg true 1 true)).err = none := by
  decide

end Builder
